import Mathlib

/-!
Verification of the real-time call-signaling layer of the MentalBackend
repository (src/services/socketService.js), against its natural-language
specification.

Two models are developed below.

* `SocketCode`: a shallow embedding of the socket service exactly as it
  appears in src/services/socketService.js.  The handlers registered there
  are: `join-room`, `offer`, `answer`, `ice-candidate`, `disconnect`,
  `user-audio-status`, `user-video-status`.  No other event has a handler,
  and the file maintains no appointment gating and no call-activity state.
  Socket.io transport semantics that the handlers rely on are embedded
  explicitly: each connection is automatically a member of the room named
  by its own connection id; `socket.join(r)` adds the socket to room `r`
  without leaving any previously joined room; `socket.to(r).emit(...)`
  delivers to the members of room `r` other than the sender; a disconnect
  removes the socket from every room.

* `SocketSpecModel`: the spec describes a second, richer revision of the
  signaling core (authorization gates, call-activity state, `start-call`
  and `end-call` handlers) that is not present under src/.  The claims
  about that machinery are settled against a model built from the spec's
  own words; every definition of that model carries a doc comment starting
  with `Modelled from the spec:`.
-/

namespace SocketCode

/-- Connection identifiers (socket.io socket ids). -/
abbrev ConnId := String

/-- Opaque client-supplied JSON values (SDP blobs, ICE candidates, ...). -/
abbrev Js := String

/-- The per-socket mutable record `socket.data`: the `join-room` handler
stores `roomId`, `userId` and `userName` there (lines 20-22 of the source);
before any join all three are absent (`none`). -/
structure SocketData where
  roomId : Option String
  userId : Option String
  userName : Option String
deriving DecidableEq, Repr

/-- One entry of the `room-users` roster built at lines 36-43 of the
source: `{socketId, userId, userName}`. -/
structure RoomUser where
  socketId : ConnId
  userId : Option String
  userName : Option String
deriving DecidableEq, Repr

/-- The payload shapes the source emits, one constructor per object
literal appearing in an `emit` call of socketService.js. -/
inductive Payload where
  | userJoined (userId userName : Option String) (socketId : ConnId)
  | roomUsers (users : List RoomUser)
  | offer (sdp : Js) (sender : ConnId) (senderId senderName : Option String)
  | answer (sdp : Js) (sender : ConnId) (senderId senderName : Option String)
  | iceCandidate (candidate : Js) (sender : ConnId)
  | userLeft (userId userName : Option String) (socketId : ConnId)
  | audioStatus (userId userName : Option String) (isMuted : Bool)
  | videoStatus (userId userName : Option String) (isVideoOff : Bool)
deriving DecidableEq, Repr

/-- The JSON object keys of each emitted payload, read off the object
literals in the source (e.g. the relayed `ice-candidate` object at lines
72-75 is `{candidate, sender}`, while the relayed `offer` object at lines
52-57 is `{offer, sender, senderId, senderName}`). -/
def payloadKeys : Payload → List String
  | .userJoined _ _ _ => ["userId", "userName", "socketId"]
  | .roomUsers _ => []
  | .offer _ _ _ _ => ["offer", "sender", "senderId", "senderName"]
  | .answer _ _ _ _ => ["answer", "sender", "senderId", "senderName"]
  | .iceCandidate _ _ => ["candidate", "sender"]
  | .userLeft _ _ _ => ["userId", "userName", "socketId"]
  | .audioStatus _ _ _ => ["userId", "userName", "isMuted"]
  | .videoStatus _ _ _ => ["userId", "userName", "isVideoOff"]

/-- One server-to-client delivery: the receiving connection, the event
name, and the payload. -/
structure Emit where
  dest : ConnId
  event : String
  payload : Payload
deriving DecidableEq, Repr

/-- Server state: the live sockets with their `socket.data`, and the
adapter's room table (`io.sockets.adapter.rooms`), room name to member
list in insertion order. -/
structure ServerState where
  sockets : List (ConnId × SocketData)
  rooms : List (String × List ConnId)
deriving DecidableEq, Repr

/-- Association-list lookup by key. -/
def lookupKey {α : Type} : List (String × α) → String → Option α
  | [], _ => none
  | (k, v) :: rest, key => if k = key then some v else lookupKey rest key

/-- Association-list update (insert or overwrite) by key. -/
def setKey {α : Type} : List (String × α) → String → α → List (String × α)
  | [], key, v => [(key, v)]
  | (k, w) :: rest, key, v =>
      if k = key then (key, v) :: rest else (k, w) :: setKey rest key v

/-- Association-list removal by key. -/
def removeKey {α : Type} : List (String × α) → String → List (String × α)
  | [], _ => []
  | (k, w) :: rest, key =>
      if k = key then rest else (k, w) :: removeKey rest key

/-- Members of a room (empty when the adapter has no such room). -/
def members (s : ServerState) (r : String) : List ConnId :=
  (lookupKey s.rooms r).getD []

/-- The `socket.data` of a connection; an absent socket reads as an empty
record (all fields undefined), matching a fresh `socket.data` object. -/
def dataOf (s : ServerState) (c : ConnId) : SocketData :=
  (lookupKey s.sockets c).getD ⟨none, none, none⟩

/-- `socket.join(r)`: add the socket to room `r` if not already a member;
never leaves any other room. -/
def adapterJoin (s : ServerState) (c : ConnId) (r : String) : ServerState :=
  let ms := members s r
  if c ∈ ms then s else { s with rooms := setKey s.rooms r (ms ++ [c]) }

/-- `socket.to(r)` recipients: members of room `r` other than the sender. -/
def recipients (s : ServerState) (r : String) (sender : ConnId) : List ConnId :=
  (members s r).filter (fun t => t ≠ sender)

/-- Client-to-server events.  The handlers of the source destructure only
`target` and the SDP/candidate field of the relay payloads; any further
fields the client placed on the payload object are carried in `extra` and
ignored by the code. -/
inductive Event where
  | connect (c : ConnId)
  | joinRoom (c : ConnId) (roomId userId userName : String)
  | offer (c : ConnId) (target : String) (sdp : Js) (extra : List (String × Js))
  | answer (c : ConnId) (target : String) (sdp : Js) (extra : List (String × Js))
  | iceCandidate (c : ConnId) (target : String) (candidate : Js) (extra : List (String × Js))
  | audioStatus (c : ConnId) (isMuted : Bool)
  | videoStatus (c : ConnId) (isVideoOff : Bool)
  | disconnect (c : ConnId)
deriving DecidableEq, Repr

/-- Connection establishment: the socket is created with empty
`socket.data` and the adapter places it alone in the room named by its own
id (socket.io default). -/
def handleConnect (s : ServerState) (c : ConnId) : ServerState × List Emit :=
  (adapterJoin { s with sockets := setKey s.sockets c ⟨none, none, none⟩ } c c, [])

/-- The `join-room` handler, lines 18-48 of socketService.js: join the
room, record `roomId`/`userId`/`userName` on `socket.data`, broadcast
`user-joined` to the other members, then send the joiner the `room-users`
roster excluding itself.  There is no appointment lookup, no status check
and no authorization: every join is accepted. -/
def handleJoin (s : ServerState) (c : ConnId) (r u n : String) :
    ServerState × List Emit :=
  let s1 := adapterJoin s c r
  let s2 := { s1 with sockets := setKey s1.sockets c ⟨some r, some u, some n⟩ }
  let joinedEmits := (recipients s2 r c).map fun t =>
    ⟨t, "user-joined", .userJoined (some u) (some n) c⟩
  let roster := (members s2 r).filterMap fun sid =>
    (lookupKey s2.sockets sid).map fun d => RoomUser.mk sid d.userId d.userName
  (s2, joinedEmits ++ [⟨c, "room-users", .roomUsers (roster.filter (fun ru => ru.socketId ≠ c))⟩])

/-- The `offer` handler, lines 51-58: relay `data.offer` to
`socket.to(data.target)`, stamped with `sender`, `senderId`, `senderName`
taken from the relaying socket.  No state change. -/
def handleOffer (s : ServerState) (c : ConnId) (target : String) (sdp : Js) :
    ServerState × List Emit :=
  (s, (recipients s target c).map fun t =>
    ⟨t, "offer", .offer sdp c (dataOf s c).userId (dataOf s c).userName⟩)

/-- The `answer` handler, lines 61-68: same shape as `offer`. -/
def handleAnswer (s : ServerState) (c : ConnId) (target : String) (sdp : Js) :
    ServerState × List Emit :=
  (s, (recipients s target c).map fun t =>
    ⟨t, "answer", .answer sdp c (dataOf s c).userId (dataOf s c).userName⟩)

/-- The `ice-candidate` handler, lines 71-76: relay `{candidate, sender}`
only — unlike `offer`/`answer` it does not attach `senderId`/`senderName`. -/
def handleIce (s : ServerState) (c : ConnId) (target : String) (cand : Js) :
    ServerState × List Emit :=
  (s, (recipients s target c).map fun t =>
    ⟨t, "ice-candidate", .iceCandidate cand c⟩)

/-- The `user-audio-status` handler, lines 93-99: broadcast the flag to
`socket.to(socket.data.roomId)`; with `roomId` unset the target room does
not exist and nobody receives.  No state change. -/
def handleAudio (s : ServerState) (c : ConnId) (m : Bool) :
    ServerState × List Emit :=
  match (dataOf s c).roomId with
  | some r => (s, (recipients s r c).map fun t =>
      ⟨t, "user-audio-status", .audioStatus (dataOf s c).userId (dataOf s c).userName m⟩)
  | none => (s, [])

/-- The `user-video-status` handler, lines 102-108: same shape as audio. -/
def handleVideo (s : ServerState) (c : ConnId) (v : Bool) :
    ServerState × List Emit :=
  match (dataOf s c).roomId with
  | some r => (s, (recipients s r c).map fun t =>
      ⟨t, "user-video-status", .videoStatus (dataOf s c).userId (dataOf s c).userName v⟩)
  | none => (s, [])

/-- The `disconnect` handler, lines 79-90, together with the transport
cleanup: if `socket.data.roomId` is set, broadcast `user-left` to the
remaining members of that room; the socket leaves every room and is
destroyed.  Nothing else changes; in particular no other event is
emitted. -/
def handleDisconnect (s : ServerState) (c : ConnId) : ServerState × List Emit :=
  let d := dataOf s c
  let emits : List Emit :=
    match d.roomId with
    | some r => (recipients s r c).map fun t =>
        ⟨t, "user-left", .userLeft d.userId d.userName c⟩
    | none => []
  (⟨removeKey s.sockets c,
    (s.rooms.map fun p => (p.1, p.2.filter (fun x => x ≠ c))).filter fun p => p.2 ≠ []⟩,
   emits)

/-- One step of the server: dispatch an inbound event to its handler.
`start-call` and `end-call` do not appear: socketService.js registers no
handler for them, so such events are ignored by the server. -/
def step (s : ServerState) : Event → ServerState × List Emit
  | .connect c => handleConnect s c
  | .joinRoom c r u n => handleJoin s c r u n
  | .offer c target sdp _ => handleOffer s c target sdp
  | .answer c target sdp _ => handleAnswer s c target sdp
  | .iceCandidate c target cand _ => handleIce s c target cand
  | .audioStatus c m => handleAudio s c m
  | .videoStatus c v => handleVideo s c v
  | .disconnect c => handleDisconnect s c

/-- The empty server. -/
def init : ServerState := ⟨[], []⟩

/-- Run a sequence of events from the empty server, keeping the final
state. -/
def run (es : List Event) : ServerState :=
  es.foldl (fun s e => (step s e).1) init

end SocketCode

namespace SocketSpecModel

abbrev ConnId := String

abbrev Js := String

/-- Modelled from the spec: the closed role enumeration
`patient | doctor | admin` of §3 (Participant Handle attributes). -/
inductive Role where
  | patient
  | doctor
  | admin
deriving DecidableEq, Repr

/-- Modelled from the spec: staff roles, `role ∈ {doctor, admin}`. -/
def roleIsStaff : Role → Bool
  | .doctor => true
  | .admin => true
  | .patient => false

/-- Modelled from the spec: the external Appointment entity of §3 —
identifier, patient identifier, doctor identifier, status string, and the
meeting-room token (`meeting_room_id` in the appointments table). -/
structure Appointment where
  id : String
  patientId : String
  doctorId : String
  status : String
  meetingRoomId : String
deriving DecidableEq, Repr

/-- Modelled from the spec: the Identity Resolver of §4.1 — resolve a room
key by trying (a) exact match on the meeting-room token, then (b) exact
match on the appointment identifier; `none` when neither matches. -/
def resolve (appts : List Appointment) (key : String) : Option Appointment :=
  match appts.find? (fun a => a.meetingRoomId = key) with
  | some a => some a
  | none => appts.find? (fun a => a.id = key)

/-- Modelled from the spec: §4.2 `canJoin` — allowed iff appointment
status is not `completed`, and (userId equals `patient_id` or userId
equals `doctor_id` or the role is doctor or admin). -/
def canJoin (a : Appointment) (userId : String) (role : Role) : Bool :=
  a.status ≠ "completed" &&
    (userId = a.patientId || userId = a.doctorId || roleIsStaff role)

/-- Modelled from the spec: §4.2 `canStart` — allowed iff the role is
doctor or admin, and (the role is admin or userId equals `doctor_id`), and
the appointment status is not `completed`. -/
def canStart (a : Appointment) (userId : String) (role : Role) : Bool :=
  roleIsStaff role && (role = Role.admin || userId = a.doctorId) &&
    a.status ≠ "completed"

/-- Modelled from the spec: §4.2 `canEnd` — allowed iff the role is doctor
or admin. -/
def canEnd (role : Role) : Bool := roleIsStaff role

/-- Modelled from the spec: the Participant Handle of §3 — connection id,
user id, display name, role and room key; created on successful join. -/
structure Handle where
  connId : ConnId
  userId : String
  userName : String
  role : Role
  roomId : String
deriving DecidableEq, Repr

/-- Modelled from the spec: the Room of §3 — the participant handles in
join order, the call-activity flag, and the starter of the active call
(the `isActive`/`startedBy` boolean-flag pair named in §9). -/
structure Room where
  participants : List Handle
  isActive : Bool
  startedBy : Option String
deriving DecidableEq, Repr

/-- Modelled from the spec: a room that has never been referenced —
no participants, call inactive, no starter (§4.4 initial state `EMPTY`). -/
def emptyRoom : Room := ⟨[], false, none⟩

/-- Modelled from the spec: server state of the richer revision — the
read-only appointment store, the Room Registry (key to room), and the
per-connection handle recorded on successful join. -/
structure MState where
  appts : List Appointment
  rooms : List (String × Room)
  conns : List (ConnId × Handle)
deriving DecidableEq, Repr

/-- Modelled from the spec: events of the Session Coordinator state
machine of §4.4 — join, start-call, end-call, relay (offer/answer/ICE),
status broadcast, disconnect. -/
inductive MEvent where
  | join (c : ConnId) (key userId userName : String) (role : Role)
  | startCall (c : ConnId)
  | endCall (c : ConnId)
  | relay (c : ConnId) (target : ConnId) (payload : Js)
  | status (c : ConnId) (flag : Bool)
  | disconnect (c : ConnId)
deriving DecidableEq, Repr

/-- Modelled from the spec: the server-emitted events of §6 that the
richer revision produces. -/
inductive MEmit where
  | error (dest : ConnId) (msg : String)
  | callState (dest : ConnId) (isActive : Bool) (startedBy : Option String)
  | userJoined (dest : ConnId) (userId userName : String) (connId : ConnId)
  | roomUsers (dest : ConnId) (users : List Handle)
  | callStarted (dest : ConnId) (startedBy startedByName : String)
  | callEnded (dest : ConnId) (endedBy endedByName : String)
  | userLeft (dest : ConnId) (userId userName : String) (connId : ConnId)
  | relayed (dest : ConnId) (payload : Js) (senderId : String)
  | statusFlag (dest : ConnId) (flag : Bool) (senderId : String)
deriving DecidableEq, Repr

/-- Association-list lookup by key (spec-model copy, over any key and
value types with decidable key equality). -/
def lookupM {κ α : Type} [DecidableEq κ] : List (κ × α) → κ → Option α
  | [], _ => none
  | (k, v) :: rest, key => if k = key then some v else lookupM rest key

/-- Association-list update by key. -/
def setM {κ α : Type} [DecidableEq κ] : List (κ × α) → κ → α → List (κ × α)
  | [], key, v => [(key, v)]
  | (k, w) :: rest, key, v =>
      if k = key then (key, v) :: rest else (k, w) :: setM rest key v

/-- Association-list removal by key. -/
def removeM {κ α : Type} [DecidableEq κ] : List (κ × α) → κ → List (κ × α)
  | [], _ => []
  | (k, w) :: rest, key =>
      if k = key then rest else (k, w) :: removeM rest key

/-- The room stored under a key, or the untouched `EMPTY` room. -/
def roomOf (s : MState) (key : String) : Room :=
  (lookupM s.rooms key).getD emptyRoom

/-- Modelled from the spec: the `join-room` transition of §4.4 — resolve
the key (error `NotFound` to the requester only when it resolves to no
appointment), error `InvalidState` when the appointment is `completed`,
error `Forbidden` when the Gate denies; otherwise register the handle,
emit `call-state{isActive, startedBy}` to the joiner only, and only when
the call is already active additionally broadcast `user-joined` to the
rest of the room and send the joiner the roster excluding itself. -/
def handleJoinM (s : MState) (c : ConnId) (key uid name : String)
    (role : Role) : MState × List MEmit :=
  match resolve s.appts key with
  | none => (s, [.error c "NotFound"])
  | some a =>
    if a.status = "completed" then (s, [.error c "InvalidState"])
    else if canJoin a uid role then
      let room := roomOf s key
      let h : Handle := ⟨c, uid, name, role, key⟩
      let room2 := { room with participants := room.participants ++ [h] }
      let s2 : MState :=
        { s with rooms := setM s.rooms key room2, conns := setM s.conns c h }
      let stateEmit : MEmit := .callState c room.isActive room.startedBy
      if room.isActive then
        (s2, stateEmit ::
          (room.participants.map fun p => .userJoined p.connId uid name c) ++
          [.roomUsers c (room2.participants.filter fun p => p.connId ≠ c)])
      else
        (s2, [stateEmit])
    else (s, [.error c "Forbidden"])

/-- Modelled from the spec: the `start-call` transition of §4.4 — reject
when the connection has not joined; re-resolve the appointment (fresh
read); Gate `canStart`, error to the caller only on deny; on allow set the
call active with `startedBy` the caller (preserved unchanged when the room
is already active, §8 re-entrant start), broadcast `call-started` and the
roster to the whole room. -/
def handleStartM (s : MState) (c : ConnId) : MState × List MEmit :=
  match lookupM s.conns c with
  | none => (s, [.error c "Forbidden"])
  | some h =>
    match resolve s.appts h.roomId with
    | none => (s, [.error c "NotFound"])
    | some a =>
      if canStart a h.userId h.role then
        let room := roomOf s h.roomId
        let room2 :=
          if room.isActive then room
          else { room with isActive := true, startedBy := some h.userId }
        let s2 : MState := { s with rooms := setM s.rooms h.roomId room2 }
        let everyone := room2.participants.map fun p => p.connId
        (s2, (everyone.map fun t =>
                MEmit.callStarted t (room2.startedBy.getD h.userId) h.userName) ++
             (everyone.map fun t => MEmit.roomUsers t room2.participants))
      else (s, [.error c "Forbidden"])

/-- Modelled from the spec: the `end-call` transition of §4.4 — Gate
`canEnd` (role only, no ownership check); on allow set the call inactive
with no starter and broadcast `call-ended` to the whole room. -/
def handleEndM (s : MState) (c : ConnId) : MState × List MEmit :=
  match lookupM s.conns c with
  | none => (s, [.error c "Forbidden"])
  | some h =>
    if canEnd h.role then
      let room := roomOf s h.roomId
      let room2 := { room with isActive := false, startedBy := none }
      let s2 : MState := { s with rooms := setM s.rooms h.roomId room2 }
      (s2, room2.participants.map fun p =>
        MEmit.callEnded p.connId h.userId h.userName)
    else (s, [.error c "Forbidden"])

/-- Modelled from the spec: the relay transitions of §4.4 — point-to-point
forward to the target connection when it exists, silently dropped
otherwise; never a state change. -/
def handleRelayM (s : MState) (c : ConnId) (target : ConnId) (payload : Js) :
    MState × List MEmit :=
  match lookupM s.conns c, lookupM s.conns target with
  | some h, some _ => (s, [.relayed target payload h.userId])
  | _, _ => (s, [])

/-- Modelled from the spec: the status transitions of §4.4 — broadcast the
caller's flag to the rest of its room only; no persisted state. -/
def handleStatusM (s : MState) (c : ConnId) (flag : Bool) :
    MState × List MEmit :=
  match lookupM s.conns c with
  | none => (s, [])
  | some h =>
    let rest := (roomOf s h.roomId).participants.filter fun p => p.connId ≠ c
    (s, rest.map fun p => MEmit.statusFlag p.connId flag h.userId)

/-- Modelled from the spec: the `disconnect` transition of §4.4 — remove
the handle from its room; if it had a room, broadcast `user-left` to the
remaining participants; the call-activity state and `startedBy` are left
untouched even when the leaver started the call. -/
def handleDisconnectM (s : MState) (c : ConnId) : MState × List MEmit :=
  match lookupM s.conns c with
  | none => (s, [])
  | some h =>
    let room := roomOf s h.roomId
    let remaining := room.participants.filter fun p => p.connId ≠ c
    let room2 := { room with participants := remaining }
    let s2 : MState :=
      { s with rooms := setM s.rooms h.roomId room2, conns := removeM s.conns c }
    (s2, remaining.map fun p => MEmit.userLeft p.connId h.userId h.userName c)

/-- Modelled from the spec: one step of the Session Coordinator state
machine of §4.4. -/
def mstep (s : MState) : MEvent → MState × List MEmit
  | .join c key uid name role => handleJoinM s c key uid name role
  | .startCall c => handleStartM s c
  | .endCall c => handleEndM s c
  | .relay c target payload => handleRelayM s c target payload
  | .status c flag => handleStatusM s c flag
  | .disconnect c => handleDisconnectM s c

/-- Modelled from the spec: the state before any connection event — an
appointment store and no rooms or handles. -/
def minit (appts : List Appointment) : MState := ⟨appts, [], []⟩

/-- Run a sequence of events from the initial state, keeping the final
state. -/
def mrun (appts : List Appointment) (es : List MEvent) : MState :=
  es.foldl (fun s e => (mstep s e).1) (minit appts)

end SocketSpecModel


namespace SocketSpecModel

theorem lookupM_setM {κ α : Type} [DecidableEq κ] (l : List (κ × α))
    (k k2 : κ) (v : α) :
    lookupM (setM l k v) k2 = if k = k2 then some v else lookupM l k2 := by
  induction l with
  | nil => simp [setM, lookupM]
  | cons p rest ih =>
    obtain ⟨pk, pv⟩ := p
    by_cases hpk : pk = k
    · subst hpk
      by_cases h2 : pk = k2 <;> simp [setM, lookupM, h2]
    · simp only [setM, if_neg hpk, lookupM]
      by_cases hpk2 : pk = k2
      · subst hpk2
        have hne : ¬ k = pk := fun hc => hpk hc.symm
        simp [lookupM, ih, hne]
      · simp [lookupM, hpk2, ih]

/-- The call-activity invariant of §3: in every registered room,
`startedBy` is non-null exactly when the call-activity flag is set. -/
def callInv (s : MState) : Prop :=
  ∀ k room, lookupM s.rooms k = some room →
    room.startedBy.isSome = room.isActive

theorem callInv_roomOf {s : MState} (h : callInv s) (k : String) :
    (roomOf s k).startedBy.isSome = (roomOf s k).isActive := by
  unfold roomOf
  cases hl : lookupM s.rooms k with
  | none => simp [emptyRoom]
  | some room => simpa using h k room hl

theorem callInv_setRoom {s : MState} (h : callInv s) (key : String)
    (room2 : Room) (conns2 : List (ConnId × Handle))
    (h2 : room2.startedBy.isSome = room2.isActive) :
    callInv (MState.mk s.appts (setM s.rooms key room2) conns2) := by
  intro k room hlook
  simp only at hlook
  rw [lookupM_setM] at hlook
  split at hlook
  · cases hlook
    exact h2
  · exact h _ _ hlook

theorem callInv_handleJoinM (s : MState) (c : ConnId) (key uid name : String)
    (role : Role) (h : callInv s) :
    callInv (handleJoinM s c key uid name role).1 := by
  unfold handleJoinM
  split
  · exact h
  · split
    · exact h
    · split
      · dsimp only
        split
        · exact callInv_setRoom h key _ _ (callInv_roomOf h key)
        · exact callInv_setRoom h key _ _ (callInv_roomOf h key)
      · exact h

theorem callInv_handleStartM (s : MState) (c : ConnId) (h : callInv s) :
    callInv (handleStartM s c).1 := by
  unfold handleStartM
  split
  · exact h
  · next hh hconn =>
    split
    · exact h
    · split
      · dsimp only
        by_cases hact : (roomOf s hh.roomId).isActive
        · rw [if_pos hact]
          exact callInv_setRoom h _ _ _ (callInv_roomOf h _)
        · rw [if_neg hact]
          apply callInv_setRoom h _ _ _
          simp
      · exact h

theorem callInv_handleEndM (s : MState) (c : ConnId) (h : callInv s) :
    callInv (handleEndM s c).1 := by
  unfold handleEndM
  split
  · exact h
  · split
    · dsimp only
      apply callInv_setRoom h _ _ _
      simp
    · exact h

theorem callInv_handleDisconnectM (s : MState) (c : ConnId) (h : callInv s) :
    callInv (handleDisconnectM s c).1 := by
  unfold handleDisconnectM
  split
  · exact h
  · dsimp only
    exact callInv_setRoom h _ _ _ (callInv_roomOf h _)

theorem callInv_handleRelayM (s : MState) (c target : ConnId) (p : Js)
    (h : callInv s) : callInv (handleRelayM s c target p).1 := by
  unfold handleRelayM
  split
  · exact h
  · exact h

theorem callInv_handleStatusM (s : MState) (c : ConnId) (flag : Bool)
    (h : callInv s) : callInv (handleStatusM s c flag).1 := by
  unfold handleStatusM
  split
  · exact h
  · exact h

theorem callInv_mstep (s : MState) (e : MEvent) (h : callInv s) :
    callInv (mstep s e).1 := by
  cases e with
  | join c key uid name role => exact callInv_handleJoinM s c key uid name role h
  | startCall c => exact callInv_handleStartM s c h
  | endCall c => exact callInv_handleEndM s c h
  | relay c target payload => exact callInv_handleRelayM s c target payload h
  | status c flag => exact callInv_handleStatusM s c flag h
  | disconnect c => exact callInv_handleDisconnectM s c h

theorem callInv_foldl (es : List MEvent) (s : MState) (h : callInv s) :
    callInv (es.foldl (fun s e => (mstep s e).1) s) := by
  induction es generalizing s with
  | nil => exact h
  | cons e rest ih => exact ih _ (callInv_mstep s e h)

theorem callInv_mrun (appts : List Appointment) (es : List MEvent) :
    callInv (mrun appts es) := by
  unfold mrun
  apply callInv_foldl
  intro k room hlook
  simp [minit, lookupM] at hlook

end SocketSpecModel

namespace SocketSpecModel

/-- An `error` emission. -/
def isErrorE : MEmit → Bool
  | .error _ _ => true
  | _ => false

/-- A `call-ended` emission. -/
def isCallEndedE : MEmit → Bool
  | .callEnded _ _ _ => true
  | _ => false

theorem roomOf_setM (s : MState) (key : String) (room2 : Room)
    (conns2 : List (ConnId × Handle)) (k : String) :
    roomOf (MState.mk s.appts (setM s.rooms key room2) conns2) k =
      if key = k then room2 else roomOf s k := by
  unfold roomOf
  simp only
  rw [lookupM_setM]
  split <;> rfl

theorem canStart_iff (a : Appointment) (uid : String) (role : Role) :
    canStart a uid role = true ↔
      ((role = Role.doctor ∨ role = Role.admin) ∧
       (role = Role.admin ∨ uid = a.doctorId) ∧ a.status ≠ "completed") := by
  cases role <;> simp [canStart, roleIsStaff]

/-- C2: for every room and after every sequence of events of the Session
Coordinator (join, start-call, end-call, relay, status, disconnect), the
room's `startedBy` field is non-null if and only if its call-activity
state is `active`. -/
theorem C2_startedBy_iff_active (appts : List Appointment)
    (es : List MEvent) (k : String) (room : Room)
    (h : lookupM (mrun appts es).rooms k = some room) :
    room.startedBy ≠ none ↔ room.isActive = true := by
  have hinv := callInv_mrun appts es k room h
  rw [Option.ne_none_iff_isSome, hinv]

/-- Witness for C2: a doctor joins their appointment's room and starts the
call; the resulting room is active with a non-null starter, and the
invariant instantiates to it. -/
theorem C2_startedBy_iff_active_witness :
    (Room.mk [Handle.mk "c1" "d1" "Dr" Role.doctor "a1"] true
        (some "d1")).startedBy ≠ none ↔
      (Room.mk [Handle.mk "c1" "d1" "Dr" Role.doctor "a1"] true
        (some "d1")).isActive = true :=
  C2_startedBy_iff_active
    [Appointment.mk "a1" "p1" "d1" "scheduled" "room-1"]
    [MEvent.join "c1" "a1" "d1" "Dr" Role.doctor, MEvent.startCall "c1"]
    "a1" _ (by decide)

/-- C3: a `start-call` from a joined connection whose role is `patient`
yields a single Forbidden error to that connection only and leaves the
state (call-activity state and `startedBy` included) unchanged, with no
`call-started` broadcast; and `start-call` succeeds without error exactly
when the role is doctor or admin, and (the role is admin or the userId
equals the appointment's doctor id), and the appointment status is not
`completed`. -/
theorem C3_patient_start_forbidden (s : MState) (c : ConnId) (h : Handle)
    (a : Appointment) (hc : lookupM s.conns c = some h)
    (ha : resolve s.appts h.roomId = some a) :
    (h.role = Role.patient →
      mstep s (MEvent.startCall c) = (s, [MEmit.error c "Forbidden"])) ∧
    ((∀ e ∈ (mstep s (MEvent.startCall c)).2, isErrorE e = false) ↔
      ((h.role = Role.doctor ∨ h.role = Role.admin) ∧
       (h.role = Role.admin ∨ h.userId = a.doctorId) ∧
       a.status ≠ "completed")) := by
  constructor
  · intro hrole
    have hcs : canStart a h.userId h.role = false := by
      simp [canStart, roleIsStaff, hrole]
    simp [mstep, handleStartM, hc, ha, hcs]
  · rw [← canStart_iff]
    by_cases hcs : canStart a h.userId h.role = true
    · simp only [mstep, handleStartM, hc, ha]
      rw [if_pos hcs]
      apply iff_of_true _ hcs
      intro e he
      simp only at he
      rcases List.mem_append.1 he with hmem | hmem <;>
        rcases List.mem_map.1 hmem with ⟨t, _, rfl⟩ <;> rfl
    · simp only [mstep, handleStartM, hc, ha]
      rw [if_neg hcs]
      apply iff_of_false _ hcs
      intro hall
      have := hall (MEmit.error c "Forbidden") (by simp)
      simp [isErrorE] at this

/-- Witness for C3: a patient who joined their own appointment's room
emits `start-call` and is denied. -/
theorem C3_patient_start_forbidden_witness :
    ((Handle.mk "c1" "p1" "Pat" Role.patient "a1").role = Role.patient →
      mstep
        (MState.mk [Appointment.mk "a1" "p1" "d1" "scheduled" "room-1"]
          [("a1", Room.mk [Handle.mk "c1" "p1" "Pat" Role.patient "a1"]
            false none)]
          [("c1", Handle.mk "c1" "p1" "Pat" Role.patient "a1")])
        (MEvent.startCall "c1") =
      (MState.mk [Appointment.mk "a1" "p1" "d1" "scheduled" "room-1"]
          [("a1", Room.mk [Handle.mk "c1" "p1" "Pat" Role.patient "a1"]
            false none)]
          [("c1", Handle.mk "c1" "p1" "Pat" Role.patient "a1")],
        [MEmit.error "c1" "Forbidden"])) ∧
    ((∀ e ∈ (mstep
        (MState.mk [Appointment.mk "a1" "p1" "d1" "scheduled" "room-1"]
          [("a1", Room.mk [Handle.mk "c1" "p1" "Pat" Role.patient "a1"]
            false none)]
          [("c1", Handle.mk "c1" "p1" "Pat" Role.patient "a1")])
        (MEvent.startCall "c1")).2, isErrorE e = false) ↔
      (((Handle.mk "c1" "p1" "Pat" Role.patient "a1").role = Role.doctor ∨
        (Handle.mk "c1" "p1" "Pat" Role.patient "a1").role = Role.admin) ∧
       ((Handle.mk "c1" "p1" "Pat" Role.patient "a1").role = Role.admin ∨
        (Handle.mk "c1" "p1" "Pat" Role.patient "a1").userId =
          (Appointment.mk "a1" "p1" "d1" "scheduled" "room-1").doctorId) ∧
       (Appointment.mk "a1" "p1" "d1" "scheduled" "room-1").status ≠
         "completed")) :=
  C3_patient_start_forbidden _ "c1" _ _ (by decide) (by decide)

/-- C5: a disconnect removes the handle from the room of the disconnecting
connection and broadcasts `user-left` to exactly the remaining
participants, while every room's call-activity state and `startedBy` are
unchanged (even when the leaver started the call) and no `call-ended`
event is emitted; a disconnect of a connection that never joined
broadcasts nothing. -/
theorem C5_disconnect_preserves_call_state (s : MState) (c : ConnId) :
    (∀ k, (roomOf (mstep s (MEvent.disconnect c)).1 k).isActive =
            (roomOf s k).isActive ∧
          (roomOf (mstep s (MEvent.disconnect c)).1 k).startedBy =
            (roomOf s k).startedBy) ∧
    (∀ e ∈ (mstep s (MEvent.disconnect c)).2, isCallEndedE e = false) ∧
    (∀ h, lookupM s.conns c = some h →
      (mstep s (MEvent.disconnect c)).2 =
        ((roomOf s h.roomId).participants.filter fun p =>
            p.connId ≠ c).map
          (fun p => MEmit.userLeft p.connId h.userId h.userName c) ∧
      (roomOf (mstep s (MEvent.disconnect c)).1 h.roomId).participants =
        (roomOf s h.roomId).participants.filter fun p => p.connId ≠ c) ∧
    (lookupM s.conns c = none → (mstep s (MEvent.disconnect c)).2 = []) := by
  cases hconn : lookupM s.conns c with
  | none =>
    refine ⟨?_, ?_, ?_, ?_⟩
    · intro k
      simp [mstep, handleDisconnectM, hconn]
    · intro e he
      simp [mstep, handleDisconnectM, hconn] at he
    · intro h hh
      cases hh
    · intro _
      simp [mstep, handleDisconnectM, hconn]
  | some h0 =>
    refine ⟨?_, ?_, ?_, ?_⟩
    · intro k
      simp only [mstep, handleDisconnectM, hconn]
      rw [roomOf_setM]
      split
      · next heq =>
        subst heq
        exact ⟨rfl, rfl⟩
      · exact ⟨rfl, rfl⟩
    · intro e he
      simp only [mstep, handleDisconnectM, hconn] at he
      rcases List.mem_map.1 he with ⟨p, _, rfl⟩
      rfl
    · intro h hh
      cases hh
      constructor
      · simp only [mstep, handleDisconnectM, hconn]
      · simp only [mstep, handleDisconnectM, hconn]
        rw [roomOf_setM]
        simp
    · intro hnone
      cases hnone

/-- Witness for C5: the doctor who started the call disconnects; the room
stays active with the same starter and the remaining patient receives
`user-left` only. -/
theorem C5_disconnect_preserves_call_state_witness :
    (∀ k, (roomOf (mstep
        (MState.mk [Appointment.mk "a1" "p1" "d1" "scheduled" "room-1"]
          [("a1", Room.mk [Handle.mk "c1" "d1" "Dr" Role.doctor "a1",
            Handle.mk "c2" "p1" "Pat" Role.patient "a1"] true (some "d1"))]
          [("c1", Handle.mk "c1" "d1" "Dr" Role.doctor "a1"),
           ("c2", Handle.mk "c2" "p1" "Pat" Role.patient "a1")])
        (MEvent.disconnect "c1")).1 k).isActive =
          (roomOf
            (MState.mk [Appointment.mk "a1" "p1" "d1" "scheduled" "room-1"]
              [("a1", Room.mk [Handle.mk "c1" "d1" "Dr" Role.doctor "a1",
                Handle.mk "c2" "p1" "Pat" Role.patient "a1"] true
                (some "d1"))]
              [("c1", Handle.mk "c1" "d1" "Dr" Role.doctor "a1"),
               ("c2", Handle.mk "c2" "p1" "Pat" Role.patient "a1")]) k).isActive ∧
        (roomOf (mstep
          (MState.mk [Appointment.mk "a1" "p1" "d1" "scheduled" "room-1"]
            [("a1", Room.mk [Handle.mk "c1" "d1" "Dr" Role.doctor "a1",
              Handle.mk "c2" "p1" "Pat" Role.patient "a1"] true (some "d1"))]
            [("c1", Handle.mk "c1" "d1" "Dr" Role.doctor "a1"),
             ("c2", Handle.mk "c2" "p1" "Pat" Role.patient "a1")])
          (MEvent.disconnect "c1")).1 k).startedBy =
          (roomOf
            (MState.mk [Appointment.mk "a1" "p1" "d1" "scheduled" "room-1"]
              [("a1", Room.mk [Handle.mk "c1" "d1" "Dr" Role.doctor "a1",
                Handle.mk "c2" "p1" "Pat" Role.patient "a1"] true
                (some "d1"))]
              [("c1", Handle.mk "c1" "d1" "Dr" Role.doctor "a1"),
               ("c2", Handle.mk "c2" "p1" "Pat" Role.patient "a1")]) k).startedBy) ∧
    (∀ e ∈ (mstep
        (MState.mk [Appointment.mk "a1" "p1" "d1" "scheduled" "room-1"]
          [("a1", Room.mk [Handle.mk "c1" "d1" "Dr" Role.doctor "a1",
            Handle.mk "c2" "p1" "Pat" Role.patient "a1"] true (some "d1"))]
          [("c1", Handle.mk "c1" "d1" "Dr" Role.doctor "a1"),
           ("c2", Handle.mk "c2" "p1" "Pat" Role.patient "a1")])
        (MEvent.disconnect "c1")).2, isCallEndedE e = false) ∧
    (∀ h, lookupM
        (MState.mk [Appointment.mk "a1" "p1" "d1" "scheduled" "room-1"]
          [("a1", Room.mk [Handle.mk "c1" "d1" "Dr" Role.doctor "a1",
            Handle.mk "c2" "p1" "Pat" Role.patient "a1"] true (some "d1"))]
          [("c1", Handle.mk "c1" "d1" "Dr" Role.doctor "a1"),
           ("c2", Handle.mk "c2" "p1" "Pat" Role.patient "a1")]).conns
          "c1" = some h →
      (mstep
        (MState.mk [Appointment.mk "a1" "p1" "d1" "scheduled" "room-1"]
          [("a1", Room.mk [Handle.mk "c1" "d1" "Dr" Role.doctor "a1",
            Handle.mk "c2" "p1" "Pat" Role.patient "a1"] true (some "d1"))]
          [("c1", Handle.mk "c1" "d1" "Dr" Role.doctor "a1"),
           ("c2", Handle.mk "c2" "p1" "Pat" Role.patient "a1")])
        (MEvent.disconnect "c1")).2 =
        ((roomOf
          (MState.mk [Appointment.mk "a1" "p1" "d1" "scheduled" "room-1"]
            [("a1", Room.mk [Handle.mk "c1" "d1" "Dr" Role.doctor "a1",
              Handle.mk "c2" "p1" "Pat" Role.patient "a1"] true (some "d1"))]
            [("c1", Handle.mk "c1" "d1" "Dr" Role.doctor "a1"),
             ("c2", Handle.mk "c2" "p1" "Pat" Role.patient "a1")])
          h.roomId).participants.filter fun p => p.connId ≠ "c1").map
          (fun p => MEmit.userLeft p.connId h.userId h.userName "c1") ∧
      (roomOf (mstep
        (MState.mk [Appointment.mk "a1" "p1" "d1" "scheduled" "room-1"]
          [("a1", Room.mk [Handle.mk "c1" "d1" "Dr" Role.doctor "a1",
            Handle.mk "c2" "p1" "Pat" Role.patient "a1"] true (some "d1"))]
          [("c1", Handle.mk "c1" "d1" "Dr" Role.doctor "a1"),
           ("c2", Handle.mk "c2" "p1" "Pat" Role.patient "a1")])
        (MEvent.disconnect "c1")).1 h.roomId).participants =
        (roomOf
          (MState.mk [Appointment.mk "a1" "p1" "d1" "scheduled" "room-1"]
            [("a1", Room.mk [Handle.mk "c1" "d1" "Dr" Role.doctor "a1",
              Handle.mk "c2" "p1" "Pat" Role.patient "a1"] true (some "d1"))]
            [("c1", Handle.mk "c1" "d1" "Dr" Role.doctor "a1"),
             ("c2", Handle.mk "c2" "p1" "Pat" Role.patient "a1")])
          h.roomId).participants.filter fun p => p.connId ≠ "c1") ∧
    (lookupM
        (MState.mk [Appointment.mk "a1" "p1" "d1" "scheduled" "room-1"]
          [("a1", Room.mk [Handle.mk "c1" "d1" "Dr" Role.doctor "a1",
            Handle.mk "c2" "p1" "Pat" Role.patient "a1"] true (some "d1"))]
          [("c1", Handle.mk "c1" "d1" "Dr" Role.doctor "a1"),
           ("c2", Handle.mk "c2" "p1" "Pat" Role.patient "a1")]).conns
          "c1" = none →
      (mstep
        (MState.mk [Appointment.mk "a1" "p1" "d1" "scheduled" "room-1"]
          [("a1", Room.mk [Handle.mk "c1" "d1" "Dr" Role.doctor "a1",
            Handle.mk "c2" "p1" "Pat" Role.patient "a1"] true (some "d1"))]
          [("c1", Handle.mk "c1" "d1" "Dr" Role.doctor "a1"),
           ("c2", Handle.mk "c2" "p1" "Pat" Role.patient "a1")])
        (MEvent.disconnect "c1")).2 = []) :=
  C5_disconnect_preserves_call_state _ "c1"

end SocketSpecModel

namespace SocketCode

theorem lookupKey_setKey {α : Type} (l : List (String × α)) (k k2 : String)
    (v : α) :
    lookupKey (setKey l k v) k2 = if k = k2 then some v else lookupKey l k2 := by
  induction l with
  | nil => simp [setKey, lookupKey]
  | cons p rest ih =>
    obtain ⟨pk, pv⟩ := p
    by_cases hpk : pk = k
    · subst hpk
      by_cases h2 : pk = k2 <;> simp [setKey, lookupKey, h2]
    · simp only [setKey, if_neg hpk, lookupKey]
      by_cases hpk2 : pk = k2
      · subst hpk2
        have hne : ¬ k = pk := fun hc => hpk hc.symm
        simp [lookupKey, ih, hne]
      · simp [lookupKey, hpk2, ih]

theorem mem_members_adapterJoin_self (s : ServerState) (c : ConnId)
    (r : String) : c ∈ members (adapterJoin s c r) r := by
  unfold adapterJoin
  by_cases hmem : c ∈ members s r
  · simp [hmem]
  · simp only [hmem, if_neg, ite_false]
    unfold members
    simp only
    rw [lookupKey_setKey]
    simp

theorem mem_members_adapterJoin_mono (s : ServerState) (c : ConnId)
    (r r2 : String) (x : ConnId) (hx : x ∈ members s r2) :
    x ∈ members (adapterJoin s c r) r2 := by
  unfold adapterJoin
  by_cases hmem : c ∈ members s r
  · simpa [hmem] using hx
  · simp only [hmem, if_neg, ite_false]
    unfold members
    simp only
    rw [lookupKey_setKey]
    by_cases hr : r = r2
    · subst hr
      simp only [if_pos rfl, Option.getD_some]
      exact List.mem_append.2 (Or.inl hx)
    · simpa [hr] using hx

/-- C1 counterexample: in the code a `join-room` is accepted with no check
whatsoever — the handler consults no appointment store — so a join against
any room key (in particular one resolving to a completed appointment)
leaves the room with 1 participant, not 0, and no `error` event is
emitted. -/
theorem C1_counterexample :
    members (run [Event.connect "c1",
        Event.joinRoom "c1" "appt-A" "u1" "Alice"]) "appt-A" = ["c1"] ∧
    ∀ e ∈ (step (run [Event.connect "c1"])
        (Event.joinRoom "c1" "appt-A" "u1" "Alice")).2,
      e.event ≠ "error" := by decide

/-- C1 (amended): every `join-room` is accepted unconditionally — the
handler performs no appointment resolution and no authorization check, the
joining connection always becomes a member of the room, and no handler of
the socket service ever emits an `error` event. -/
theorem C1_amended_join_always_accepted (s : ServerState) (e : Event) :
    (∀ em ∈ (step s e).2, em.event ≠ "error") ∧
    (∀ c r u n, e = Event.joinRoom c r u n →
      c ∈ members (step s e).1 r) := by
  constructor
  · intro em hem
    cases e with
    | connect c => simp [step, handleConnect] at hem
    | joinRoom c r u n =>
      simp only [step, handleJoin] at hem
      rcases List.mem_append.1 hem with hmem | hmem
      · rcases List.mem_map.1 hmem with ⟨t, _, rfl⟩
        simp
      · rcases List.mem_singleton.1 hmem with rfl
        simp
    | offer c t sdp ex =>
      simp only [step, handleOffer] at hem
      rcases List.mem_map.1 hem with ⟨t2, _, rfl⟩
      simp
    | answer c t sdp ex =>
      simp only [step, handleAnswer] at hem
      rcases List.mem_map.1 hem with ⟨t2, _, rfl⟩
      simp
    | iceCandidate c t cand ex =>
      simp only [step, handleIce] at hem
      rcases List.mem_map.1 hem with ⟨t2, _, rfl⟩
      simp
    | audioStatus c m =>
      simp only [step, handleAudio] at hem
      split at hem
      · rcases List.mem_map.1 hem with ⟨t2, _, rfl⟩
        simp
      · simp at hem
    | videoStatus c v =>
      simp only [step, handleVideo] at hem
      split at hem
      · rcases List.mem_map.1 hem with ⟨t2, _, rfl⟩
        simp
      · simp at hem
    | disconnect c =>
      simp only [step, handleDisconnect] at hem
      split at hem
      · rcases List.mem_map.1 hem with ⟨t2, _, rfl⟩
        simp
      · simp at hem
  · intro c r u n he
    subst he
    simp only [step, handleJoin]
    exact mem_members_adapterJoin_self s c r

/-- Witness for the amended C1: a concrete join puts the joiner in the
room. -/
theorem C1_amended_join_always_accepted_witness :
    "c1" ∈ members (step (run [Event.connect "c1"])
      (Event.joinRoom "c1" "A" "u" "N")).1 "A" :=
  (C1_amended_join_always_accepted (run [Event.connect "c1"])
      (Event.joinRoom "c1" "A" "u" "N")).2 "c1" "A" "u" "N" rfl

/-- C4 counterexample: a second participant joins a room in which no call
is active (the code has no call-activity state at all); the claim requires
that no `user-joined` be broadcast then and that a `call-state` event go
to the joiner, but the code broadcasts `user-joined` unconditionally and
never emits any `call-state` event. -/
theorem C4_counterexample :
    (∃ e ∈ (step (run [Event.connect "c1", Event.connect "c2",
        Event.joinRoom "c1" "A" "u1" "N1"])
        (Event.joinRoom "c2" "A" "u2" "N2")).2,
      e.event = "user-joined" ∧ e.dest = "c1") ∧
    (∀ e ∈ (step (run [Event.connect "c1", Event.connect "c2",
        Event.joinRoom "c1" "A" "u1" "N1"])
        (Event.joinRoom "c2" "A" "u2" "N2")).2,
      e.event ≠ "call-state") := by decide

/-- C4 (amended): on every `join-room` the server unconditionally
broadcasts `user-joined{userId,userName,socketId}` to exactly the other
members of the room (never to the joiner), unconditionally sends the
`room-users` roster — the stored data of the room's members with the
joiner excluded — to the joining connection only, and emits no
`call-state` event (none exists in the code). -/
theorem C4_amended_join_emissions (s : ServerState) (c : ConnId)
    (r u n : String) :
    (∀ e ∈ (step s (Event.joinRoom c r u n)).2, e.event ≠ "call-state") ∧
    (∀ e ∈ (step s (Event.joinRoom c r u n)).2, e.event = "user-joined" →
      e.dest ∈ members (step s (Event.joinRoom c r u n)).1 r ∧ e.dest ≠ c ∧
      e.payload = Payload.userJoined (some u) (some n) c) ∧
    (∀ t ∈ members (step s (Event.joinRoom c r u n)).1 r, t ≠ c →
      Emit.mk t "user-joined" (Payload.userJoined (some u) (some n) c) ∈
        (step s (Event.joinRoom c r u n)).2) ∧
    (∀ e ∈ (step s (Event.joinRoom c r u n)).2, e.event = "room-users" →
      e.dest = c) ∧
    (∀ e ∈ (step s (Event.joinRoom c r u n)).2, ∀ l,
      e.payload = Payload.roomUsers l → ∀ ru ∈ l, ru.socketId ≠ c) ∧
    (Emit.mk c "room-users"
      (Payload.roomUsers
        (((members (step s (Event.joinRoom c r u n)).1 r).filterMap
            fun sid =>
              (lookupKey (step s (Event.joinRoom c r u n)).1.sockets
                sid).map fun d => RoomUser.mk sid d.userId d.userName).filter
          fun ru => ru.socketId ≠ c)) ∈
      (step s (Event.joinRoom c r u n)).2) := by
  refine ⟨?_, ?_, ?_, ?_, ?_, ?_⟩
  · intro e he
    simp only [step, handleJoin] at he
    rcases List.mem_append.1 he with hmem | hmem
    · rcases List.mem_map.1 hmem with ⟨t, _, rfl⟩
      simp
    · rcases List.mem_singleton.1 hmem with rfl
      simp
  · intro e he hev
    simp only [step, handleJoin] at he ⊢
    rcases List.mem_append.1 he with hmem | hmem
    · rcases List.mem_map.1 hmem with ⟨t, ht, rfl⟩
      have := List.mem_filter.1 ht
      refine ⟨this.1, by simpa using this.2, rfl⟩
    · rcases List.mem_singleton.1 hmem with rfl
      simp at hev
  · intro t ht htc
    simp only [step, handleJoin] at ht ⊢
    apply List.mem_append.2
    left
    apply List.mem_map.2
    refine ⟨t, ?_, rfl⟩
    exact List.mem_filter.2 ⟨ht, by simpa using htc⟩
  · intro e he hev
    simp only [step, handleJoin] at he
    rcases List.mem_append.1 he with hmem | hmem
    · rcases List.mem_map.1 hmem with ⟨t, _, rfl⟩
      simp at hev
    · rcases List.mem_singleton.1 hmem with rfl
      rfl
  · intro e he l hl ru hru
    simp only [step, handleJoin] at he
    rcases List.mem_append.1 he with hmem | hmem
    · rcases List.mem_map.1 hmem with ⟨t, _, rfl⟩
      simp at hl
    · rcases List.mem_singleton.1 hmem with rfl
      simp only [Payload.roomUsers.injEq] at hl
      subst hl
      have := List.mem_filter.1 hru
      simpa using this.2
  · simp only [step, handleJoin]
    exact List.mem_append.2 (Or.inr (List.mem_singleton.2 rfl))

/-- Witness for the amended C4: in a concrete two-member room the other
member receives `user-joined` for the joiner, and the joiner receives the
`room-users` roster listing exactly the other member. -/
theorem C4_amended_join_emissions_witness :
    Emit.mk "c1" "user-joined" (Payload.userJoined (some "u2") (some "N2")
      "c2") ∈
    (step (run [Event.connect "c1", Event.connect "c2",
        Event.joinRoom "c1" "A" "u1" "N1"])
      (Event.joinRoom "c2" "A" "u2" "N2")).2 ∧
    Emit.mk "c2" "room-users"
      (Payload.roomUsers [RoomUser.mk "c1" (some "u1") (some "N1")]) ∈
    (step (run [Event.connect "c1", Event.connect "c2",
        Event.joinRoom "c1" "A" "u1" "N1"])
      (Event.joinRoom "c2" "A" "u2" "N2")).2 :=
  ⟨(C4_amended_join_emissions (run [Event.connect "c1", Event.connect "c2",
      Event.joinRoom "c1" "A" "u1" "N1"]) "c2" "A" "u2" "N2").2.2.1
    "c1" (by decide) (by decide),
   (C4_amended_join_emissions (run [Event.connect "c1", Event.connect "c2",
      Event.joinRoom "c1" "A" "u1" "N1"]) "c2" "A" "u2" "N2").2.2.2.2.2⟩

end SocketCode

namespace SocketCode

/-- C6: an `offer` from connection X with target Y changes no server
state; when the room named by the target key has exactly the live
connection Y as member (Y distinct from X), the relayed `offer` — carrying
the client payload stamped with `sender = X` and `senderId`/`senderName`
from X's stored socket data — is delivered to Y and only Y; when the
target room is empty or absent (target connection gone) nothing at all is
emitted: the relay is silently dropped. -/
theorem C6_offer_relay_targeted (s : ServerState) (c : ConnId) (t : String)
    (sdp : Js) (extra : List (String × Js)) (y : ConnId) :
    (step s (Event.offer c t sdp extra)).1 = s ∧
    (members s t = [y] → y ≠ c →
      (step s (Event.offer c t sdp extra)).2 =
        [Emit.mk y "offer"
          (Payload.offer sdp c (dataOf s c).userId (dataOf s c).userName)]) ∧
    (members s t = [] → (step s (Event.offer c t sdp extra)).2 = []) := by
  refine ⟨rfl, ?_, ?_⟩
  · intro hmem hyc
    simp only [step, handleOffer, recipients, hmem]
    simp [hyc]
  · intro hmem
    simp [step, handleOffer, recipients, hmem]

/-- Witness for C6: a joined connection "x" relays an offer to the live
connection "y"; only "y" receives it, stamped with "x"'s stored user
identity. -/
theorem C6_offer_relay_targeted_witness :
    (step (run [Event.connect "x", Event.connect "y",
        Event.joinRoom "x" "A" "ux" "Nx"])
      (Event.offer "x" "y" "sdp-blob" [])).2 =
    [Emit.mk "y" "offer"
      (Payload.offer "sdp-blob" "x" (some "ux") (some "Nx"))] :=
  (C6_offer_relay_targeted (run [Event.connect "x", Event.connect "y",
      Event.joinRoom "x" "A" "ux" "Nx"]) "x" "y" "sdp-blob" [] "y").2.1
    (by decide) (by decide)

/-- C7 counterexample: connection "c2" joins room "A" and then room "B";
it remains a member of "A" (socket.join adds and never leaves), and it
still receives a broadcast addressed to room "A". -/
theorem C7_counterexample :
    "c2" ∈ members (run [Event.connect "c1", Event.connect "c2",
      Event.joinRoom "c1" "A" "u1" "N1", Event.joinRoom "c2" "A" "u2" "N2",
      Event.joinRoom "c2" "B" "u2" "N2"]) "A" ∧
    (dataOf (run [Event.connect "c1", Event.connect "c2",
      Event.joinRoom "c1" "A" "u1" "N1", Event.joinRoom "c2" "A" "u2" "N2",
      Event.joinRoom "c2" "B" "u2" "N2"]) "c2").roomId = some "B" ∧
    (∃ e ∈ (step (run [Event.connect "c1", Event.connect "c2",
        Event.joinRoom "c1" "A" "u1" "N1",
        Event.joinRoom "c2" "A" "u2" "N2",
        Event.joinRoom "c2" "B" "u2" "N2"])
        (Event.audioStatus "c1" true)).2, e.dest = "c2") := by decide

/-- C7 (amended): a `join-room` never removes the connection from any room
it already belongs to — membership is additive, so a connection that joins
a second room is a member of both and keeps receiving broadcasts addressed
to the first — while `socket.data.roomId` is overwritten to the most
recent room key. -/
theorem C7_amended_join_additive (s : ServerState) (c : ConnId)
    (r u n r2 : String) (hx : c ∈ members s r2) :
    c ∈ members (step s (Event.joinRoom c r u n)).1 r2 ∧
    (dataOf (step s (Event.joinRoom c r u n)).1 c).roomId = some r := by
  constructor
  · simp only [step, handleJoin]
    exact mem_members_adapterJoin_mono s c r r2 c hx
  · simp only [step, handleJoin, dataOf]
    rw [lookupKey_setKey]
    simp

/-- Witness for the amended C7: after joining "B" second, "c2" is still a
member of "A" and its recorded room is "B". -/
theorem C7_amended_join_additive_witness :
    "c2" ∈ members (step (run [Event.connect "c1", Event.connect "c2",
      Event.joinRoom "c1" "A" "u1" "N1", Event.joinRoom "c2" "A" "u2" "N2"])
      (Event.joinRoom "c2" "B" "u2" "N2")).1 "A" ∧
    (dataOf (step (run [Event.connect "c1", Event.connect "c2",
      Event.joinRoom "c1" "A" "u1" "N1", Event.joinRoom "c2" "A" "u2" "N2"])
      (Event.joinRoom "c2" "B" "u2" "N2")).1 "c2").roomId = some "B" :=
  C7_amended_join_additive (run [Event.connect "c1", Event.connect "c2",
      Event.joinRoom "c1" "A" "u1" "N1", Event.joinRoom "c2" "A" "u2" "N2"])
    "c2" "B" "u2" "N2" "A" (by decide)

/-- C8 counterexample: a relayed `ice-candidate` delivered to its target
carries only `candidate` and `sender` — the `senderId` and `senderName`
keys present on relayed `offer`/`answer` payloads are absent from it. -/
theorem C8_counterexample :
    (step (run [Event.connect "c1", Event.connect "c2",
        Event.joinRoom "c1" "A" "u1" "N1",
        Event.joinRoom "c2" "A" "u2" "N2"])
      (Event.iceCandidate "c1" "c2" "cand-blob" [])).2 =
    [Emit.mk "c2" "ice-candidate" (Payload.iceCandidate "cand-blob" "c1")] ∧
    "senderId" ∉ payloadKeys (Payload.iceCandidate "cand-blob" "c1") ∧
    "senderName" ∉ payloadKeys (Payload.iceCandidate "cand-blob" "c1") ∧
    "senderId" ∈ payloadKeys (Payload.offer "o" "c1" (some "u1")
      (some "N1")) ∧
    "senderName" ∈ payloadKeys (Payload.answer "a" "c1" (some "u1")
      (some "N1")) := by decide

/-- C8 (amended): every relayed `ice-candidate` payload is exactly
`{candidate, sender}` — without the `senderId`/`senderName` keys — whereas
every relayed `offer` and `answer` payload does carry `senderId` and
`senderName`. -/
theorem C8_amended_ice_fields (s : ServerState) (c : ConnId) (t : String)
    (cand : Js) (ex : List (String × Js)) :
    (∀ e ∈ (step s (Event.iceCandidate c t cand ex)).2,
      e.payload = Payload.iceCandidate cand c ∧
      payloadKeys e.payload = ["candidate", "sender"]) ∧
    (∀ sdp : Js, ∀ e ∈ (step s (Event.offer c t sdp ex)).2,
      "senderId" ∈ payloadKeys e.payload ∧
      "senderName" ∈ payloadKeys e.payload) ∧
    (∀ sdp : Js, ∀ e ∈ (step s (Event.answer c t sdp ex)).2,
      "senderId" ∈ payloadKeys e.payload ∧
      "senderName" ∈ payloadKeys e.payload) := by
  refine ⟨?_, ?_, ?_⟩
  · intro e he
    simp only [step, handleIce] at he
    rcases List.mem_map.1 he with ⟨t2, _, rfl⟩
    exact ⟨rfl, rfl⟩
  · intro sdp e he
    simp only [step, handleOffer] at he
    rcases List.mem_map.1 he with ⟨t2, _, rfl⟩
    simp [payloadKeys]
  · intro sdp e he
    simp only [step, handleAnswer] at he
    rcases List.mem_map.1 he with ⟨t2, _, rfl⟩
    simp [payloadKeys]

/-- Witness for the amended C8: a concrete relayed candidate has exactly
the two keys. -/
theorem C8_amended_ice_fields_witness :
    payloadKeys (Payload.iceCandidate "cand-blob" "c1") =
      ["candidate", "sender"] :=
  ((C8_amended_ice_fields (run [Event.connect "c1", Event.connect "c2",
      Event.joinRoom "c1" "A" "u1" "N1", Event.joinRoom "c2" "A" "u2" "N2"])
    "c1" "c2" "cand-blob" []).1
    (Emit.mk "c2" "ice-candidate" (Payload.iceCandidate "cand-blob" "c1"))
    (by decide)).2

end SocketCode

namespace SocketCode

/-- C9: a `user-audio-status` or `user-video-status` event from a joined
connection (one whose recorded `roomId` is set) modifies no server state
and broadcasts the caller's flag, stamped with the caller's stored
identity, to exactly the other members of the caller's room — never back
to the caller. -/
theorem C9_status_broadcast_others_only (s : ServerState) (c : ConnId)
    (r : String) (m v : Bool) (hr : (dataOf s c).roomId = some r) :
    ((step s (Event.audioStatus c m)).1 = s ∧
     (∀ e ∈ (step s (Event.audioStatus c m)).2,
        e.dest ∈ members s r ∧ e.dest ≠ c ∧
        e.event = "user-audio-status" ∧
        e.payload = Payload.audioStatus (dataOf s c).userId
          (dataOf s c).userName m) ∧
     (∀ t ∈ members s r, t ≠ c →
        Emit.mk t "user-audio-status" (Payload.audioStatus
          (dataOf s c).userId (dataOf s c).userName m) ∈
          (step s (Event.audioStatus c m)).2)) ∧
    ((step s (Event.videoStatus c v)).1 = s ∧
     (∀ e ∈ (step s (Event.videoStatus c v)).2,
        e.dest ∈ members s r ∧ e.dest ≠ c ∧
        e.event = "user-video-status" ∧
        e.payload = Payload.videoStatus (dataOf s c).userId
          (dataOf s c).userName v) ∧
     (∀ t ∈ members s r, t ≠ c →
        Emit.mk t "user-video-status" (Payload.videoStatus
          (dataOf s c).userId (dataOf s c).userName v) ∈
          (step s (Event.videoStatus c v)).2)) := by
  refine ⟨⟨?_, ?_, ?_⟩, ⟨?_, ?_, ?_⟩⟩
  · simp [step, handleAudio, hr]
  · intro e he
    simp only [step, handleAudio, hr] at he
    rcases List.mem_map.1 he with ⟨t, ht, rfl⟩
    have := List.mem_filter.1 ht
    exact ⟨this.1, by simpa using this.2, rfl, rfl⟩
  · intro t ht htc
    simp only [step, handleAudio, hr]
    apply List.mem_map.2
    refine ⟨t, ?_, rfl⟩
    exact List.mem_filter.2 ⟨ht, by simpa using htc⟩
  · simp [step, handleVideo, hr]
  · intro e he
    simp only [step, handleVideo, hr] at he
    rcases List.mem_map.1 he with ⟨t, ht, rfl⟩
    have := List.mem_filter.1 ht
    exact ⟨this.1, by simpa using this.2, rfl, rfl⟩
  · intro t ht htc
    simp only [step, handleVideo, hr]
    apply List.mem_map.2
    refine ⟨t, ?_, rfl⟩
    exact List.mem_filter.2 ⟨ht, by simpa using htc⟩

/-- Witness for C9: in a two-member room the other member receives the
caller's mute flag and the caller does not. -/
theorem C9_status_broadcast_others_only_witness :
    Emit.mk "c2" "user-audio-status" (Payload.audioStatus (some "u1")
      (some "N1") true) ∈
    (step (run [Event.connect "c1", Event.connect "c2",
        Event.joinRoom "c1" "A" "u1" "N1",
        Event.joinRoom "c2" "A" "u2" "N2"])
      (Event.audioStatus "c1" true)).2 :=
  ((C9_status_broadcast_others_only (run [Event.connect "c1",
      Event.connect "c2", Event.joinRoom "c1" "A" "u1" "N1",
      Event.joinRoom "c2" "A" "u2" "N2"]) "c1" "A" true false
      (by decide)).1).2.2 "c2" (by decide) (by decide)

/-- C10: the sender-identity fields of relayed `offer` and `answer` events
are taken exclusively from the server-stored socket data of the relaying
connection: two relays that differ only in the extra client-supplied
payload fields produce identical outcomes (so extra fields — including
spoofed identity keys — cannot influence the delivered `sender`,
`senderId`, `senderName`), and every delivered payload carries exactly the
stored identity of the sender. -/
theorem C10_relay_identity_unspoofable (s : ServerState) (c : ConnId)
    (t : String) (sdp : Js) (ex1 ex2 : List (String × Js)) :
    step s (Event.offer c t sdp ex1) = step s (Event.offer c t sdp ex2) ∧
    step s (Event.answer c t sdp ex1) = step s (Event.answer c t sdp ex2) ∧
    (∀ e ∈ (step s (Event.offer c t sdp ex1)).2,
      e.payload = Payload.offer sdp c (dataOf s c).userId
        (dataOf s c).userName) ∧
    (∀ e ∈ (step s (Event.answer c t sdp ex1)).2,
      e.payload = Payload.answer sdp c (dataOf s c).userId
        (dataOf s c).userName) := by
  refine ⟨rfl, rfl, ?_, ?_⟩
  · intro e he
    simp only [step, handleOffer] at he
    rcases List.mem_map.1 he with ⟨t2, _, rfl⟩
    rfl
  · intro e he
    simp only [step, handleAnswer] at he
    rcases List.mem_map.1 he with ⟨t2, _, rfl⟩
    rfl

/-- Witness for C10: a relay whose client payload carries a spoofed
senderId key delivers the server-stored identity of the sender. -/
theorem C10_relay_identity_unspoofable_witness :
    step (run [Event.connect "c1", Event.connect "c2",
        Event.joinRoom "c1" "A" "u1" "N1",
        Event.joinRoom "c2" "A" "u2" "N2"])
      (Event.offer "c1" "c2" "sdp-blob"
        [("senderId", "evil"), ("senderName", "Mallory")]) =
    step (run [Event.connect "c1", Event.connect "c2",
        Event.joinRoom "c1" "A" "u1" "N1",
        Event.joinRoom "c2" "A" "u2" "N2"])
      (Event.offer "c1" "c2" "sdp-blob" []) ∧
    (Emit.mk "c2" "offer" (Payload.offer "sdp-blob" "c1" (some "u1")
      (some "N1"))).payload =
      Payload.offer "sdp-blob" "c1" (some "u1") (some "N1") :=
  ⟨(C10_relay_identity_unspoofable (run [Event.connect "c1",
      Event.connect "c2", Event.joinRoom "c1" "A" "u1" "N1",
      Event.joinRoom "c2" "A" "u2" "N2"]) "c1" "c2" "sdp-blob"
      [("senderId", "evil"), ("senderName", "Mallory")] []).1,
   (C10_relay_identity_unspoofable (run [Event.connect "c1",
      Event.connect "c2", Event.joinRoom "c1" "A" "u1" "N1",
      Event.joinRoom "c2" "A" "u2" "N2"]) "c1" "c2" "sdp-blob"
      [("senderId", "evil"), ("senderName", "Mallory")] []).2.2.1
    (Emit.mk "c2" "offer" (Payload.offer "sdp-blob" "c1" (some "u1")
      (some "N1")))
    (by decide)⟩

end SocketCode
